import Mathlib

/-!
Verification of the `errors` package (hierarchical error classification) and
its `try` companion package (scoped panic handling / structured handler
chains), via a shallow embedding of the Go source into Lean.

Conventions of the embedding:
* Go pointer identity of `*ErrorClass` nodes is modelled by a `uid : Nat`
  carried by every node; pointer equality becomes `uid` equality, and a fresh
  allocation is modelled by passing a fresh `uid` to the constructor.
* Go strings that the code computes on are modelled as `List Char`.
* `uint64` flag sets are modelled as `Nat` with explicit masking at 2^64
  where Go's fixed width matters (bitwise complement in `NewWithout`).
* Abrupt termination (panic/recover) is modelled by explicit outcome values:
  a block either returns normally or produces a panic payload.
-/

/-- Go: `type ErrorClassFlags uint64; LogOnCreation = 1 << iota`. -/
def LogOnCreation : Nat := 1

/-- Go: `CaptureStack` is the second flag bit (`1 << 1`). -/
def CaptureStack : Nat := 2

/-- All 64 bits set: the value of Go's `^x` on `uint64` is `mask64 ^^^ x`
for `x < 2^64`. -/
def mask64 : Nat := 2 ^ 64 - 1

/-- Go: `type ErrorClass struct { parent *ErrorClass; name string;
flags ErrorClassFlags }`.  A `nil` parent pointer is the `root` constructor;
a non-nil parent is `node`.  `uid` stands for the allocation address. -/
inductive ErrorClass where
  | root (uid : Nat) (name : List Char) (flags : Nat)
  | node (uid : Nat) (name : List Char) (flags : Nat) (parent : ErrorClass)
deriving Repr

namespace ErrorClass

/-- The allocation identity of the node. -/
def uid : ErrorClass → Nat
  | .root u _ _ => u
  | .node u _ _ _ => u

/-- Go: the `name` field (returned by `String()`). -/
def name : ErrorClass → List Char
  | .root _ n _ => n
  | .node _ n _ _ => n

/-- Go: the `flags` field. -/
def flags : ErrorClass → Nat
  | .root _ _ f => f
  | .node _ _ f _ => f

/-- Go: `func (e *ErrorClass) Parent() *ErrorClass` (`none` = nil pointer). -/
def parentOpt : ErrorClass → Option ErrorClass
  | .root _ _ _ => none
  | .node _ _ _ p => some p

/-- Go: `func (e *ErrorClass) Is(parent *ErrorClass) bool`: walk `parent`
links from `e`, comparing each visited node to the argument by pointer
(here: by `uid`). -/
def Is (e target : ErrorClass) : Bool :=
  match e with
  | .root u _ _ => u == target.uid
  | .node u _ _ p => u == target.uid || Is p target

/-- The list of nodes visited by `Is`: `e`, its parent, ... up to the root. -/
def chain (e : ErrorClass) : List ErrorClass :=
  match e with
  | .root u n f => [.root u n f]
  | .node u n f p => .node u n f p :: chain p

end ErrorClass

/-- Go: `SystemError` base class (nil parent, no flags).  `uid 0`. -/
def SystemError : ErrorClass := .root 0 "System Error".toList 0

/-- Go: `HierarchicalError` base class (nil parent, `CaptureStack`).
`uid 1`. -/
def HierarchicalError : ErrorClass := .root 1 "Error".toList CaptureStack

/-- Go: `func NewSpecified(ec *ErrorClass, name string, flags ErrorClassFlags)
*ErrorClass`: nil parent defaults to `HierarchicalError`; the flags are used
exactly as supplied.  `uid` is the fresh allocation. -/
def NewSpecified (uid : Nat) (ec : Option ErrorClass) (name : List Char)
    (flags : Nat) : ErrorClass :=
  .node uid name flags (ec.getD HierarchicalError)

/-- Go: `func NewWith(ec *ErrorClass, name string, flags_to_add
ErrorClassFlags) *ErrorClass`: parent's flags bitwise-or the additions. -/
def NewWith (uid : Nat) (ec : Option ErrorClass) (name : List Char)
    (flags_to_add : Nat) : ErrorClass :=
  let p := ec.getD HierarchicalError
  .node uid name (p.flags ||| flags_to_add) p

/-- Go: `func NewWithout(ec *ErrorClass, name string, flags_to_remove
ErrorClassFlags) *ErrorClass`: parent's flags and-not the removals
(`ec.flags & ^flags_to_remove` on `uint64`). -/
def NewWithout (uid : Nat) (ec : Option ErrorClass) (name : List Char)
    (flags_to_remove : Nat) : ErrorClass :=
  let p := ec.getD HierarchicalError
  .node uid name (p.flags &&& (mask64 ^^^ flags_to_remove)) p

/-- Go: `func New(ec *ErrorClass, name string) *ErrorClass`: parent's flags
unchanged. -/
def ErrorClassNew (uid : Nat) (ec : Option ErrorClass) (name : List Char) :
    ErrorClass :=
  let p := ec.getD HierarchicalError
  .node uid name p.flags p

/-- Go: `ProgrammerError = NewWith(nil, "Programmer Error", LogOnCreation)`.
`uid 2`. -/
def ProgrammerError : ErrorClass :=
  NewWith 2 none "Programmer Error".toList LogOnCreation

/-!
## The `Error` value of `errors.go` (wrap boundary and string rendering)

Go's `error` interface values reaching `Wrap` / `Error()` are either the
package's own `*Error` (`wrapped`) or some other error value (`plain`, with
an allocation tag standing for its identity and the string its `Error()`
method returns).
-/

/-- A Go `error` interface value as seen by `errors.go`: either the
package's own `*Error` struct (`err`, `class`, `stack` fields) or any other
error (identity tag plus the message its `Error()` method yields). -/
inductive ErrVal where
  | plain (tag : Nat) (msg : List Char)
  | wrapped (cls : ErrorClass) (cause : ErrVal) (stack : Option (List Char))
deriving Repr

/-- The fresh `&Error{err: err, class: e}` built at the end of
`ErrorClass.Wrap`, with the stack captured iff the class has `CaptureStack`;
`stackBytes` stands for what `runtime.Stack` returned. -/
def wrapNew (e : ErrorClass) (v : ErrVal) (stackBytes : List Char) : ErrVal :=
  .wrapped e v (if e.flags &&& CaptureStack > 0 then some stackBytes else none)

/-- Go: `func (e *ErrorClass) Wrap(err error, classes ...*ErrorClass) error`.
`none` models a nil `error`.  (The `LogOnCreation` log line is a side effect
outside the return contract and is not modelled.) -/
def ErrorClass.Wrap (e : ErrorClass) (err : Option ErrVal)
    (classes : List ErrorClass) (stackBytes : List Char) : Option ErrVal :=
  match err with
  | none => none
  | some (ErrVal.wrapped cls cause stk) =>
      if cls.Is e then some (ErrVal.wrapped cls cause stk)
      else if classes.any (fun c => cls.Is c) then
        some (ErrVal.wrapped cls cause stk)
      else some (wrapNew e (ErrVal.wrapped cls cause stk) stackBytes)
  | some v => some (wrapNew e v stackBytes)

/-- Go: `strings.TrimRight(s, "\n ")` — drop trailing newlines and spaces. -/
def trimRight (l : List Char) : List Char :=
  (l.reverse.dropWhile (fun c => c == '\n' || c == ' ')).reverse

/-- Go: `strings.Replace(message, "\n", "\n  ", -1)` — indent every
continuation line by two spaces. -/
def indentNl : List Char → List Char
  | [] => []
  | c :: rest =>
      if c = '\n' then '\n' :: ' ' :: ' ' :: indentNl rest
      else c :: indentNl rest

/-- Go: `func (e *Error) Error() string`, applied recursively (the cause's
message is the cause's own `Error()` rendering). -/
def render : ErrVal → List Char
  | .plain _ m => m
  | .wrapped cls cause stk =>
      let message := trimRight (render cause)
      let message :=
        if message.contains '\n' then
          cls.name ++ ":\n  ".toList ++ indentNl message
        else
          cls.name ++ ": ".toList ++ message
      match stk with
      | none => message
      | some s =>
          message ++ "\n\n".toList ++ cls.name ++ " backtrace: ".toList ++ s

/-!
## The `try` package: panic payloads, Plans, and the `Done` engine

`try.go` builds against a later revision of the `errors` package whose error
values carry a key/value data side-table (`GenSym`, `SetData`, `GetData`,
`RecordBefore`, `NewClass`, class-method `NewWith`).  Those collaborators are
not in the sources at hand; they are modelled from the spec below, each
marked as such.

A panic payload (`interface{}` reaching `recover()`) is one of: the nil
interface, a classified `*errors.Error`, some other `error` value, or a
non-error value.  Identity of plain errors and raw values is a `tag`.
-/

/-- A Go `interface{}` panic payload as classified by `Plan.Done`'s type
switch.  `classified` is the newer `*errors.Error`: class, message (an
opaque tag) and the key/value data side-table. -/
inductive Val where
  | vnil : Val
  | classified (cls : ErrorClass) (msgTag : Nat) (data : List (Nat × Val)) : Val
  | plainErr (tag : Nat) : Val
  | raw (tag : Nat) : Val

/-- Modelled from the spec: `OriginalErrorKey = errors.GenSym()` — the
process-wide unique side-table key under which the unknown-fault adapter
stashes the original raw payload.  Gensyms are modelled as distinct `Nat`s. -/
def OriginalErrorKey : Nat := 0

/-- Modelled from the spec: the distinct gensym key under which
`errors.RecordBefore` appends its exit-path record. -/
def exitRecordKey : Nat := 1

/-- Modelled from the spec: `UnknownPanicError = errors.NewClass("Unknown
Error")` — a user-defined class whose absent parent defaults to the
stack-capturing hierarchical root.  `uid 3`. -/
def UnknownPanicError : ErrorClass :=
  ErrorClassNew 3 none "Unknown Error".toList

/-- Modelled from the spec: `errors.GetData(err, key)` — look the key up in
the error's data side-table; absent for non-classified values. -/
def getData (v : Val) (key : Nat) : Option Val :=
  match v with
  | .classified _ _ d => List.lookup key d
  | _ => none

/-- Modelled from the spec: `errors.RecordBefore(err, depth)` — append a
purely additive exit-path record to the error's data side-table; class,
message and other entries are untouched.  The record's contents (a runtime
code location) are outside the model, so an opaque value stands for it. -/
def recordBefore : Val → Val
  | .classified cls m d => .classified cls m (d ++ [(exitRecordKey, Val.vnil)])
  | v => v

/-- The adapter built in `Done`'s `default` branch:
`UnknownPanicError.NewWith(fmt.Sprintf("%v", rec),
errors.SetData(OriginalErrorKey, rec))` (the constructor and `SetData` are
modelled from the spec: a fresh Error of class `UnknownPanicError` whose
data side-table maps the well-known key to the original raw payload; the
formatted message is the payload's tag). -/
def mkUnknown (tag : Nat) : Val :=
  .classified UnknownPanicError tag [(OriginalErrorKey, Val.raw tag)]

/-- One entry of `Plan.catch`: `check{match, handler}` for `Catch` (typed)
and `check{match: nil, anyhandler}` for `CatchAll` (wildcard).  A handler's
behaviour is its result: `none` = it returns normally, `some v` = it panics
`v`. -/
inductive Check where
  | typed (cls : ErrorClass) (handler : Val → Option Val)
  | wildcard (anyhandler : Val → Option Val)

/-- Observable events of one `Done` execution: catch entry `idx` invoked
with argument `arg`; the composed `finally` callback invoked; the cleanup
registered `idx`-th executed within it. -/
inductive Event where
  | handlerRun (idx : Nat) (arg : Val)
  | finallyInvoked
  | finallyPart (idx : Nat)

/-- A configured `Plan` at the moment `Done` is called.  `mainOutcome` is
what the protected block does (`none` = returns normally, `some v` = panics
`v`); `catches` (Go field `catch`) is in registration order; `finallies` are the registered
cleanups in registration order, each with its own behaviour (`none` =
returns, `some v` = panics `v`). -/
structure Plan where
  mainOutcome : Option Val
  catches : List Check
  finallies : List (Option Val)

/-- The `case *errors.Error` loop of `Done`: scan `catch` in order; a
wildcard always fires, a typed entry fires when `err.Is(catch.match)`.
Yields (events, consumed, panic the handler raised if any). -/
def scanErr (ecls : ErrorClass) (v : Val) :
    Nat → List Check → List Event × Bool × Option Val
  | _, [] => ([], false, none)
  | i, .wildcard b :: _ => ([.handlerRun i v], true, b v)
  | i, .typed cls b :: rest =>
      if ecls.Is cls then ([.handlerRun i v], true, b v)
      else scanErr ecls v (i + 1) rest

/-- The `case error` loop of `Done`: typed entries are skipped, only a
wildcard fires (receiving the raw error value). -/
def scanPlain (v : Val) : Nat → List Check → List Event × Bool × Option Val
  | _, [] => ([], false, none)
  | i, .wildcard b :: _ => ([.handlerRun i v], true, b v)
  | i, .typed _ _ :: rest => scanPlain v (i + 1) rest

/-- The `default` loop of `Done`: a wildcard fires with a fresh
`mkUnknown` adapter; a typed entry fires (also with a fresh adapter) when
`UnknownPanicError.Is(catch.match)`. -/
def scanRaw (tag : Nat) : Nat → List Check → List Event × Bool × Option Val
  | _, [] => ([], false, none)
  | i, .wildcard b :: _ => ([.handlerRun i (mkUnknown tag)], true, b (mkUnknown tag))
  | i, .typed cls b :: rest =>
      if UnknownPanicError.Is cls then
        ([.handlerRun i (mkUnknown tag)], true, b (mkUnknown tag))
      else scanRaw tag (i + 1) rest

/-- The `switch err := rec.(type)` of `Done`.  `case nil` consumes the fault
with no handler; `case *errors.Error` records the exit path and scans with
`Is`-matching (the class is unchanged by `recordBefore`); `case error`
scans wildcards only; `default` scans with the unknown-fault adapter. -/
def dispatch (catches : List Check) : Val → List Event × Bool × Option Val
  | .vnil => ([], true, none)
  | .classified cls m d =>
      scanErr cls (recordBefore (.classified cls m d)) 0 catches
  | .plainErr t => scanPlain (.plainErr t) 0 catches
  | .raw t => scanRaw t 0 catches

/-- Execution of the composed `finally` callback.  `Plan.Finally` composes
`f2 := p.finally; p.finally = func() { f(); f2() }`, so cleanups run in
reverse registration order, and a cleanup that panics prevents the
remaining (earlier-registered) ones from running and carries its panic out
of the composed callback. -/
def runFinallyAux : List (Nat × Option Val) → List Event × Option Val
  | [] => ([], none)
  | (i, some v) :: _ => ([.finallyPart i], some v)
  | (i, none) :: rest =>
      (.finallyPart i :: (runFinallyAux rest).1, (runFinallyAux rest).2)

/-- Run the composed `finally`: latest registration first. -/
def runFinally (fs : List (Option Val)) : List Event × Option Val :=
  runFinallyAux fs.enum.reverse

/-- Go: `func (p *Plan) Done()` — the deferred recovery boundary.  `rec :=
recover()` is nil both when `main` returned normally and when it panicked
nil.  The handler (if any) runs with `consumed` already true; the inner
defer then runs `p.finally()` and re-panics `rec` only if nothing consumed
the fault.  A panic raised by the composed finally replaces whatever panic
was in flight (handler's, or the re-panicked original); otherwise a
handler's panic replaces the original.  Result: (event trace, propagating
panic payload if any). -/
def Done (p : Plan) : List Event × Option Val :=
  let recVal := p.mainOutcome.getD Val.vnil
  let disp := dispatch p.catches recVal
  let fin := runFinally p.finallies
  let events := disp.1 ++ Event.finallyInvoked :: fin.1
  let outcome :=
    match fin.2 with
    | some v => some v
    | none =>
      match disp.2.2 with
      | some v => some v
      | none => if disp.2.1 then none else some recVal
  (events, outcome)

/-- Go: `func Repanic(err error)` — the value it panics: non-`*Error`
values and Errors not classified under `UnknownPanicError` verbatim; an
unknown-fault adapter's embedded original payload; or, when the embedded
payload is absent, `errors.ProgrammerError.New("misuse of try internals",
errors.SetData(OriginalErrorKey, err))` (constructor modelled from the
spec, message an opaque tag). -/
def Repanic (err : Val) : Val :=
  match err with
  | .classified cls m d =>
      if (ErrorClass.Is cls UnknownPanicError) = false then .classified cls m d
      else
        match getData (.classified cls m d) OriginalErrorKey with
        | some data => data
        | none =>
            .classified ProgrammerError 999
              [(OriginalErrorKey, .classified cls m d)]
  | v => v

/-- The test `Repanic` applies before unwrapping: the value is the
package's `*errors.Error` and its class `Is(UnknownPanicError)`. -/
def isUnknownClassified : Val → Bool
  | .classified cls _ _ => cls.Is UnknownPanicError
  | _ => false

/-- Is the event a handler invocation? -/
def isHandlerRun : Event → Bool
  | .handlerRun _ _ => true
  | _ => false

/-- The handler invocations of a trace, in order. -/
def handlerEvents (es : List Event) : List Event := es.filter isHandlerRun

/-- Is the event the invocation of the composed finally callback? -/
def isFinallyInvoked : Event → Bool
  | .finallyInvoked => true
  | _ => false

/-- How many times the composed finally callback was invoked. -/
def finallyInvocations (es : List Event) : Nat :=
  (es.filter isFinallyInvoked).length

/-- Index of the first catch entry that would fire for a classified Error
of class `ecls`: the first wildcard or `Is`-matching typed entry. -/
def firstErrMatchIdx (ecls : ErrorClass) : Nat → List Check → Option Nat
  | _, [] => none
  | i, .wildcard _ :: _ => some i
  | i, .typed cls _ :: rest =>
      if ecls.Is cls then some i else firstErrMatchIdx ecls (i + 1) rest

/-- Index of the first wildcard (`CatchAll`) entry. -/
def firstWildcardIdx : Nat → List Check → Option Nat
  | _, [] => none
  | i, .wildcard _ :: _ => some i
  | i, .typed _ _ :: rest => firstWildcardIdx (i + 1) rest

/-- Index of the first catch entry that would fire for a non-error payload:
the first wildcard or typed entry with `UnknownPanicError.Is` its class. -/
def firstUnknownMatchIdx : Nat → List Check → Option Nat
  | _, [] => none
  | i, .wildcard _ :: _ => some i
  | i, .typed cls _ :: rest =>
      if UnknownPanicError.Is cls then some i
      else firstUnknownMatchIdx (i + 1) rest

/-!
## Lemmas about the class hierarchy
-/

/-- Unfolding `Is` at a parentless node. -/
theorem ErrorClass.is_root (u : Nat) (n : List Char) (f : Nat)
    (t : ErrorClass) : (ErrorClass.root u n f).Is t = (u == t.uid) := rfl

/-- Unfolding `Is` at a node with a parent. -/
theorem ErrorClass.is_node (u : Nat) (n : List Char) (f : Nat)
    (p t : ErrorClass) :
    (ErrorClass.node u n f p).Is t = (u == t.uid || p.Is t) := rfl

/-- Unfolding `chain` at a parentless node. -/
theorem ErrorClass.chain_root (u : Nat) (n : List Char) (f : Nat) :
    (ErrorClass.root u n f).chain = [ErrorClass.root u n f] := rfl

/-- Unfolding `chain` at a node with a parent. -/
theorem ErrorClass.chain_node (u : Nat) (n : List Char) (f : Nat)
    (p : ErrorClass) :
    (ErrorClass.node u n f p).chain = ErrorClass.node u n f p :: p.chain := rfl

/-- `Is` looks for the target's identity along the parent chain. -/
theorem ErrorClass.is_iff_mem_chain (e a : ErrorClass) :
    e.Is a = true ↔ a.uid ∈ (ErrorClass.chain e).map ErrorClass.uid := by
  induction e with
  | root u n f =>
      simp only [ErrorClass.is_root, ErrorClass.chain_root, List.map_cons,
        List.map_nil, List.mem_singleton, beq_iff_eq, ErrorClass.uid]
      exact eq_comm
  | node u n f p ih =>
      simp only [ErrorClass.is_node, ErrorClass.chain_node, List.map_cons,
        List.mem_cons, Bool.or_eq_true, beq_iff_eq, ih, ErrorClass.uid]
      exact or_congr eq_comm Iff.rfl

/-- `Is` is reflexive: the walk starts at the class itself. -/
theorem ErrorClass.is_rfl (e : ErrorClass) : e.Is e = true := by
  cases e with
  | root u n f => simp only [ErrorClass.is_root, ErrorClass.uid,
      beq_self_eq_true]
  | node u n f p => simp only [ErrorClass.is_node, ErrorClass.uid,
      beq_self_eq_true, Bool.true_or]

/-- C7: `e.Is(a)` holds iff `a` appears (by node identity, i.e. by `uid`) on
the chain of parent links from `e` to its root; `Is` is reflexive; for a
chain A→B→C the memberships `C.Is A`, `C.Is B`, `C.Is C` hold while
`A.Is C` fails (given that C's fresh identity does not occur in A's chain);
and two distinct root classes sharing a name are unrelated. -/
theorem is_walks_parent_chain :
    (∀ e a : ErrorClass, e.Is a = true ↔
       ErrorClass.uid a ∈ (ErrorClass.chain e).map ErrorClass.uid)
    ∧ (∀ e : ErrorClass, e.Is e = true)
    ∧ (∀ (uc ub : Nat) (nc nb : List Char) (fc fb : Nat) (A : ErrorClass),
        (∀ x ∈ ErrorClass.chain A, ErrorClass.uid x ≠ uc) →
        (ErrorClass.node uc nc fc (ErrorClass.node ub nb fb A)).Is A = true
        ∧ (ErrorClass.node uc nc fc (ErrorClass.node ub nb fb A)).Is
            (ErrorClass.node ub nb fb A) = true
        ∧ (ErrorClass.node uc nc fc (ErrorClass.node ub nb fb A)).Is
            (ErrorClass.node uc nc fc (ErrorClass.node ub nb fb A)) = true
        ∧ A.Is (ErrorClass.node uc nc fc (ErrorClass.node ub nb fb A)) = false)
    ∧ (∀ (u1 u2 f1 f2 : Nat) (n : List Char), u1 ≠ u2 →
        (ErrorClass.root u1 n f1).Is (ErrorClass.root u2 n f2) = false) := by
  refine ⟨ErrorClass.is_iff_mem_chain, ErrorClass.is_rfl, ?_, ?_⟩
  · intro uc ub nc nb fc fb A h
    refine ⟨?_, ?_, ErrorClass.is_rfl _, ?_⟩
    · simp only [ErrorClass.is_node, ErrorClass.uid, ErrorClass.is_rfl,
        Bool.or_true]
    · simp only [ErrorClass.is_node, ErrorClass.uid, beq_self_eq_true,
        Bool.true_or, Bool.or_true]
    · cases hA : A.Is (ErrorClass.node uc nc fc (ErrorClass.node ub nb fb A))
      · rfl
      · exfalso
        have hm := (ErrorClass.is_iff_mem_chain A
          (ErrorClass.node uc nc fc (ErrorClass.node ub nb fb A))).mp hA
        simp only [ErrorClass.uid, List.mem_map] at hm
        obtain ⟨x, hx, hux⟩ := hm
        exact h x hx hux
  · intro u1 u2 f1 f2 n h
    simp only [ErrorClass.is_root, ErrorClass.uid, beq_eq_false_iff_ne, ne_eq]
    exact h

/-- Concrete instance of `is_walks_parent_chain` on the chain
`root 10 → node 11 → node 12`, discharging its chain-freshness
hypothesis. -/
theorem is_walks_parent_chain_witness :
    (ErrorClass.node 12 [] 0 (ErrorClass.node 11 [] 0
        (ErrorClass.root 10 [] 0))).Is (ErrorClass.root 10 [] 0) = true
    ∧ (ErrorClass.node 12 [] 0 (ErrorClass.node 11 [] 0
        (ErrorClass.root 10 [] 0))).Is
        (ErrorClass.node 11 [] 0 (ErrorClass.root 10 [] 0)) = true
    ∧ (ErrorClass.node 12 [] 0 (ErrorClass.node 11 [] 0
        (ErrorClass.root 10 [] 0))).Is
        (ErrorClass.node 12 [] 0 (ErrorClass.node 11 [] 0
          (ErrorClass.root 10 [] 0))) = true
    ∧ (ErrorClass.root 10 [] 0).Is
        (ErrorClass.node 12 [] 0 (ErrorClass.node 11 [] 0
          (ErrorClass.root 10 [] 0))) = false :=
  is_walks_parent_chain.2.2.1 12 11 [] [] 0 0 (ErrorClass.root 10 [] 0)
    (by decide)

/-- C8: every constructor is total; the parent stored is the supplied one,
defaulting to the stack-capturing `HierarchicalError` when absent; and the
flags are fixed by the chosen policy: `NewSpecified` uses exactly the
supplied flags, `NewWith` or-s the additions onto the parent's flags,
`NewWithout` clears the removed bits from the parent's flags, and `New`
(here `ErrorClassNew`) copies the parent's flags. -/
theorem constructor_flag_policy :
    (∀ (u : Nat) (p : Option ErrorClass) (n : List Char) (f : Nat),
       (NewSpecified u p n f).flags = f
       ∧ (NewSpecified u p n f).parentOpt = some (p.getD HierarchicalError))
    ∧ (∀ (u : Nat) (p : Option ErrorClass) (n : List Char) (a : Nat),
       (NewWith u p n a).flags = (p.getD HierarchicalError).flags ||| a
       ∧ (NewWith u p n a).parentOpt = some (p.getD HierarchicalError))
    ∧ (∀ (u : Nat) (p : Option ErrorClass) (n : List Char) (r : Nat),
       r < 2 ^ 64 → (p.getD HierarchicalError).flags < 2 ^ 64 →
       (∀ i, ((NewWithout u p n r).flags).testBit i
          = ((p.getD HierarchicalError).flags.testBit i && !(r.testBit i)))
       ∧ (NewWithout u p n r).parentOpt = some (p.getD HierarchicalError))
    ∧ (∀ (u : Nat) (p : Option ErrorClass) (n : List Char),
       (ErrorClassNew u p n).flags = (p.getD HierarchicalError).flags
       ∧ (ErrorClassNew u p n).parentOpt = some (p.getD HierarchicalError))
    ∧ (HierarchicalError.flags = CaptureStack
       ∧ HierarchicalError.parentOpt = none) := by
  refine ⟨?_, ?_, ?_, ?_, rfl, rfl⟩
  · intro u p n f
    exact ⟨rfl, rfl⟩
  · intro u p n a
    exact ⟨rfl, rfl⟩
  · intro u p n r hr hp
    refine ⟨?_, rfl⟩
    intro i
    show ((p.getD HierarchicalError).flags &&& (mask64 ^^^ r)).testBit i = _
    rw [Nat.testBit_and, Nat.testBit_xor, mask64,
      Nat.testBit_two_pow_sub_one]
    by_cases hi : i < 64
    · simp [hi]
    · have h2 : (2 : Nat) ^ 64 ≤ 2 ^ i :=
        Nat.pow_le_pow_right (by norm_num) (Nat.le_of_not_lt hi)
      have h1 : (p.getD HierarchicalError).flags.testBit i = false :=
        Nat.testBit_lt_two_pow (lt_of_lt_of_le hp h2)
      simp [h1]
  · intro u p n
    exact ⟨rfl, rfl⟩

/-- Concrete instance of `constructor_flag_policy`: removing bit 0 from the
default parent's flags, checked at bit 1. -/
theorem constructor_flag_policy_witness :
    ((NewWithout 7 none [] 1).flags).testBit 1
      = (((Option.getD none HierarchicalError).flags).testBit 1
          && !((1 : Nat).testBit 1)) :=
  (constructor_flag_policy.2.2.1 7 none [] 1 (by decide) (by decide)).1 1

/-- C6: `Wrap` returns nil on a nil cause; returns the cause identically
unchanged (same value: same class, cause and stack fields) when it is
already a classified Error whose class `Is` the wrapping class or `Is` some
exemption class; and otherwise builds a fresh Error of the wrapping class
around the cause (capturing a stack iff the class has `CaptureStack`). -/
theorem wrap_nil_identity_fresh :
    (∀ (e : ErrorClass) (cs : List ErrorClass) (sb : List Char),
       e.Wrap none cs sb = none)
    ∧ (∀ (e : ErrorClass) (cs : List ErrorClass) (sb : List Char)
         (cls : ErrorClass) (cause : ErrVal) (stk : Option (List Char)),
       cls.Is e = true ∨ (∃ c ∈ cs, cls.Is c = true) →
       e.Wrap (some (ErrVal.wrapped cls cause stk)) cs sb
         = some (ErrVal.wrapped cls cause stk))
    ∧ (∀ (e : ErrorClass) (cs : List ErrorClass) (sb : List Char)
         (cls : ErrorClass) (cause : ErrVal) (stk : Option (List Char)),
       cls.Is e = false → (∀ c ∈ cs, cls.Is c = false) →
       e.Wrap (some (ErrVal.wrapped cls cause stk)) cs sb
         = some (wrapNew e (ErrVal.wrapped cls cause stk) sb))
    ∧ (∀ (e : ErrorClass) (cs : List ErrorClass) (sb : List Char)
         (t : Nat) (m : List Char),
       e.Wrap (some (ErrVal.plain t m)) cs sb
         = some (wrapNew e (ErrVal.plain t m) sb))
    ∧ (∀ (e : ErrorClass) (v : ErrVal) (sb : List Char),
       wrapNew e v sb = ErrVal.wrapped e v
         (if e.flags &&& CaptureStack > 0 then some sb else none)) := by
  have hwrap : ∀ (e : ErrorClass) (cs : List ErrorClass) (sb : List Char)
      (cls : ErrorClass) (cause : ErrVal) (stk : Option (List Char)),
      e.Wrap (some (ErrVal.wrapped cls cause stk)) cs sb
        = if cls.Is e then some (ErrVal.wrapped cls cause stk)
          else if cs.any (fun c => cls.Is c) then
            some (ErrVal.wrapped cls cause stk)
          else some (wrapNew e (ErrVal.wrapped cls cause stk) sb) :=
    fun _ _ _ _ _ _ => rfl
  refine ⟨fun _ _ _ => rfl, ?_, ?_, fun _ _ _ _ _ => rfl, fun _ _ _ => rfl⟩
  · intro e cs sb cls cause stk h
    rw [hwrap]
    rcases h with h1 | h2
    · rw [if_pos h1]
    · have hany : cs.any (fun c => cls.Is c) = true := by
        rw [List.any_eq_true]
        obtain ⟨c, hc, hct⟩ := h2
        exact ⟨c, hc, hct⟩
      cases hx : cls.Is e
      · rw [if_neg (by simp [hx]), if_pos hany]
      · rw [if_pos rfl]
  · intro e cs sb cls cause stk h1 h2
    rw [hwrap, if_neg (by simp [h1])]
    have hany : cs.any (fun c => cls.Is c) = false := by
      rw [List.any_eq_false]
      intro c hc
      simp [h2 c hc]
    rw [if_neg (by simp [hany])]

/-- Concrete instance of `wrap_nil_identity_fresh`: a value already wrapped
under `ProgrammerError` is returned identically when wrapped with
`HierarchicalError`-exempt `ProgrammerError` again. -/
theorem wrap_nil_identity_fresh_witness :
    ProgrammerError.Wrap
        (some (ErrVal.wrapped ProgrammerError (ErrVal.plain 0 "x".toList)
          none)) [] []
      = some (ErrVal.wrapped ProgrammerError (ErrVal.plain 0 "x".toList)
          none) :=
  wrap_nil_identity_fresh.2.1 ProgrammerError [] [] ProgrammerError
    (ErrVal.plain 0 "x".toList) none (Or.inl (by decide))

/-- C9: an Error renders as `"<class>: <message>"` when the (normalized)
message is single-line, as the message re-indented two spaces under
`"<class>:"` when multi-line, and a captured stack is appended after a
blank line as `"<class> backtrace: <bytes>"`.  The message is the cause's
rendering with trailing newlines and spaces dropped. -/
theorem render_contract :
    (∀ (cls : ErrorClass) (cause : ErrVal),
       (trimRight (render cause)).contains '\n' = false →
       render (ErrVal.wrapped cls cause none)
         = cls.name ++ ": ".toList ++ trimRight (render cause))
    ∧ (∀ (cls : ErrorClass) (cause : ErrVal),
       (trimRight (render cause)).contains '\n' = true →
       render (ErrVal.wrapped cls cause none)
         = cls.name ++ ":\n  ".toList ++ indentNl (trimRight (render cause)))
    ∧ (∀ (cls : ErrorClass) (cause : ErrVal) (s : List Char),
       render (ErrVal.wrapped cls cause (some s))
         = render (ErrVal.wrapped cls cause none)
           ++ "\n\n".toList ++ cls.name ++ " backtrace: ".toList ++ s) := by
  have hbase : ∀ (cls : ErrorClass) (cause : ErrVal),
      render (ErrVal.wrapped cls cause none)
        = if (trimRight (render cause)).contains '\n'
          then cls.name ++ ":\n  ".toList ++ indentNl (trimRight (render cause))
          else cls.name ++ ": ".toList ++ trimRight (render cause) :=
    fun _ _ => rfl
  refine ⟨?_, ?_, fun _ _ _ => rfl⟩
  · intro cls cause h
    rw [hbase, if_neg (by simp only [h]; exact Bool.false_ne_true)]
  · intro cls cause h
    rw [hbase, if_pos h]

/-- Concrete instance of `render_contract`: single-line and multi-line
causes under `ProgrammerError`. -/
theorem render_contract_witness :
    render (ErrVal.wrapped ProgrammerError (ErrVal.plain 0 "boom".toList)
        none)
      = ProgrammerError.name ++ ": ".toList
          ++ trimRight (render (ErrVal.plain 0 "boom".toList))
    ∧ render (ErrVal.wrapped ProgrammerError (ErrVal.plain 0 "a\nb".toList)
        none)
      = ProgrammerError.name ++ ":\n  ".toList
          ++ indentNl (trimRight (render (ErrVal.plain 0 "a\nb".toList))) :=
  ⟨render_contract.1 ProgrammerError (ErrVal.plain 0 "boom".toList)
      (by decide),
   render_contract.2.1 ProgrammerError (ErrVal.plain 0 "a\nb".toList)
      (by decide)⟩

/-!
## Lemmas about the Plan engine
-/

/-- When a first match exists, the classified-payload scan invokes exactly
that entry's handler and consumes the fault. -/
theorem scanErr_first_some (ecls : ErrorClass) (v : Val) :
    ∀ (cs : List Check) (i j : Nat),
      firstErrMatchIdx ecls i cs = some j →
      (scanErr ecls v i cs).1 = [Event.handlerRun j v]
      ∧ (scanErr ecls v i cs).2.1 = true := by
  intro cs
  induction cs with
  | nil =>
      intro i j h
      simp [firstErrMatchIdx] at h
  | cons c rest ih =>
      intro i j h
      cases c with
      | wildcard b =>
          have hij : i = j := by simpa [firstErrMatchIdx] using h
          subst hij
          exact ⟨rfl, rfl⟩
      | typed cls b =>
          cases hm : ecls.Is cls
          · have h' : firstErrMatchIdx ecls (i + 1) rest = some j := by
              simpa [firstErrMatchIdx, hm] using h
            simpa [scanErr, hm] using ih (i + 1) j h'
          · have hij : i = j := by simpa [firstErrMatchIdx, hm] using h
            subst hij
            simp [scanErr, hm]

/-- When no entry matches, the classified-payload scan invokes nothing and
leaves the fault unconsumed. -/
theorem scanErr_first_none (ecls : ErrorClass) (v : Val) :
    ∀ (cs : List Check) (i : Nat),
      firstErrMatchIdx ecls i cs = none →
      scanErr ecls v i cs = ([], false, none) := by
  intro cs
  induction cs with
  | nil => intro i _; rfl
  | cons c rest ih =>
      intro i h
      cases c with
      | wildcard b => simp [firstErrMatchIdx] at h
      | typed cls b =>
          cases hm : ecls.Is cls
          · have h' : firstErrMatchIdx ecls (i + 1) rest = none := by
              simpa [firstErrMatchIdx, hm] using h
            simpa [scanErr, hm] using ih (i + 1) h'
          · simp [firstErrMatchIdx, hm] at h

/-- When a wildcard exists, the plain-error scan invokes exactly the first
wildcard's handler with the raw value and consumes the fault. -/
theorem scanPlain_first_some (v : Val) :
    ∀ (cs : List Check) (i j : Nat),
      firstWildcardIdx i cs = some j →
      (scanPlain v i cs).1 = [Event.handlerRun j v]
      ∧ (scanPlain v i cs).2.1 = true := by
  intro cs
  induction cs with
  | nil =>
      intro i j h
      simp [firstWildcardIdx] at h
  | cons c rest ih =>
      intro i j h
      cases c with
      | wildcard b =>
          have hij : i = j := by simpa [firstWildcardIdx] using h
          subst hij
          exact ⟨rfl, rfl⟩
      | typed cls b =>
          have h' : firstWildcardIdx (i + 1) rest = some j := by
            simpa [firstWildcardIdx] using h
          simpa [scanPlain] using ih (i + 1) j h'

/-- Without a wildcard, the plain-error scan invokes nothing — typed
entries are skipped wholesale — and leaves the fault unconsumed. -/
theorem scanPlain_first_none (v : Val) :
    ∀ (cs : List Check) (i : Nat),
      firstWildcardIdx i cs = none →
      scanPlain v i cs = ([], false, none) := by
  intro cs
  induction cs with
  | nil => intro i _; rfl
  | cons c rest ih =>
      intro i h
      cases c with
      | wildcard b => simp [firstWildcardIdx] at h
      | typed cls b =>
          have h' : firstWildcardIdx (i + 1) rest = none := by
            simpa [firstWildcardIdx] using h
          simpa [scanPlain] using ih (i + 1) h'

/-- When a first unknown-compatible entry exists, the non-error scan
invokes exactly that entry's handler with the synthesized adapter. -/
theorem scanRaw_first_some (t : Nat) :
    ∀ (cs : List Check) (i j : Nat),
      firstUnknownMatchIdx i cs = some j →
      (scanRaw t i cs).1 = [Event.handlerRun j (mkUnknown t)]
      ∧ (scanRaw t i cs).2.1 = true := by
  intro cs
  induction cs with
  | nil =>
      intro i j h
      simp [firstUnknownMatchIdx] at h
  | cons c rest ih =>
      intro i j h
      cases c with
      | wildcard b =>
          have hij : i = j := by simpa [firstUnknownMatchIdx] using h
          subst hij
          exact ⟨rfl, rfl⟩
      | typed cls b =>
          cases hm : UnknownPanicError.Is cls
          · have h' : firstUnknownMatchIdx (i + 1) rest = some j := by
              simpa [firstUnknownMatchIdx, hm] using h
            simpa [scanRaw, hm] using ih (i + 1) j h'
          · have hij : i = j := by simpa [firstUnknownMatchIdx, hm] using h
            subst hij
            simp [scanRaw, hm]

/-- When no entry is unknown-compatible, the non-error scan invokes
nothing and leaves the fault unconsumed. -/
theorem scanRaw_first_none (t : Nat) :
    ∀ (cs : List Check) (i : Nat),
      firstUnknownMatchIdx i cs = none →
      scanRaw t i cs = ([], false, none) := by
  intro cs
  induction cs with
  | nil => intro i _; rfl
  | cons c rest ih =>
      intro i h
      cases c with
      | wildcard b => simp [firstUnknownMatchIdx] at h
      | typed cls b =>
          cases hm : UnknownPanicError.Is cls
          · have h' : firstUnknownMatchIdx (i + 1) rest = none := by
              simpa [firstUnknownMatchIdx, hm] using h
            simpa [scanRaw, hm] using ih (i + 1) h'
          · simp [firstUnknownMatchIdx, hm] at h

/-- Cleanup execution emits only `finallyPart` events. -/
theorem runFinallyAux_filters (l : List (Nat × Option Val)) :
    ((runFinallyAux l).1.filter isHandlerRun) = []
    ∧ ((runFinallyAux l).1.filter isFinallyInvoked) = [] := by
  induction l with
  | nil => exact ⟨rfl, rfl⟩
  | cons hd rest ih =>
      obtain ⟨i, o⟩ := hd
      cases o with
      | none =>
          simp only [runFinallyAux, List.filter_cons]
          simpa [isHandlerRun, isFinallyInvoked] using ih
      | some v =>
          simp [runFinallyAux, isHandlerRun, isFinallyInvoked]

/-- The composed finally emits only `finallyPart` events. -/
theorem runFinally_filters (fs : List (Option Val)) :
    ((runFinally fs).1.filter isHandlerRun) = []
    ∧ ((runFinally fs).1.filter isFinallyInvoked) = [] :=
  runFinallyAux_filters _

/-- Dispatch emits only handler events: filtering for handler events keeps
everything, filtering for finally invocations keeps nothing. -/
theorem dispatch_filters (cs : List Check) (v : Val) :
    ((dispatch cs v).1.filter isHandlerRun) = (dispatch cs v).1
    ∧ ((dispatch cs v).1.filter isFinallyInvoked) = [] := by
  cases v with
  | vnil => exact ⟨rfl, rfl⟩
  | classified cls m d =>
      rcases h : firstErrMatchIdx cls 0 cs with _ | j
      · have he := scanErr_first_none cls
          (recordBefore (Val.classified cls m d)) cs 0 h
        simp [dispatch, he]
      · have he := (scanErr_first_some cls
          (recordBefore (Val.classified cls m d)) cs 0 j h).1
        simp [dispatch, he, isHandlerRun, isFinallyInvoked]
  | plainErr t =>
      rcases h : firstWildcardIdx 0 cs with _ | j
      · have he := scanPlain_first_none (Val.plainErr t) cs 0 h
        simp [dispatch, he]
      · have he := (scanPlain_first_some (Val.plainErr t) cs 0 j h).1
        simp [dispatch, he, isHandlerRun, isFinallyInvoked]
  | raw t =>
      rcases h : firstUnknownMatchIdx 0 cs with _ | j
      · have he := scanRaw_first_none t cs 0 h
        simp [dispatch, he]
      · have he := (scanRaw_first_some t cs 0 j h).1
        simp [dispatch, he, isHandlerRun, isFinallyInvoked]

/-- The composed finally callback is invoked exactly once on every
execution of `Done`, whatever the block, handlers and cleanups do. -/
theorem done_finally_once (p : Plan) : finallyInvocations (Done p).1 = 1 := by
  show (((dispatch p.catches (p.mainOutcome.getD Val.vnil)).1
      ++ Event.finallyInvoked :: (runFinally p.finallies).1).filter
        isFinallyInvoked).length = 1
  rw [List.filter_append, (dispatch_filters _ _).2, List.filter_cons]
  simp [isFinallyInvoked, (runFinally_filters _).2]

/-- The handler events of a `Done` trace are exactly the dispatch events. -/
theorem done_handler_events (p : Plan) :
    handlerEvents (Done p).1
      = (dispatch p.catches (p.mainOutcome.getD Val.vnil)).1 := by
  show ((dispatch p.catches (p.mainOutcome.getD Val.vnil)).1
      ++ Event.finallyInvoked :: (runFinally p.finallies).1).filter
        isHandlerRun
    = (dispatch p.catches (p.mainOutcome.getD Val.vnil)).1
  rw [List.filter_append, (dispatch_filters _ _).1, List.filter_cons]
  simp [isHandlerRun, (runFinally_filters _).1]

/-- A fault raised by the composed finally replaces whatever fault state
existed. -/
theorem done_outcome_finally_panic (p : Plan) (fv : Val)
    (h : (runFinally p.finallies).2 = some fv) : (Done p).2 = some fv := by
  show (match (runFinally p.finallies).2 with
    | some v => some v
    | none =>
      match (dispatch p.catches (p.mainOutcome.getD Val.vnil)).2.2 with
      | some v => some v
      | none =>
        if (dispatch p.catches (p.mainOutcome.getD Val.vnil)).2.1 then none
        else some (p.mainOutcome.getD Val.vnil)) = some fv
  rw [h]

/-- A fault raised by the selected handler propagates (when the finally
itself raises nothing). -/
theorem done_outcome_handler_panic (p : Plan) (hv : Val)
    (h1 : (dispatch p.catches (p.mainOutcome.getD Val.vnil)).2.2 = some hv)
    (h2 : (runFinally p.finallies).2 = none) : (Done p).2 = some hv := by
  show (match (runFinally p.finallies).2 with
    | some v => some v
    | none =>
      match (dispatch p.catches (p.mainOutcome.getD Val.vnil)).2.2 with
      | some v => some v
      | none =>
        if (dispatch p.catches (p.mainOutcome.getD Val.vnil)).2.1 then none
        else some (p.mainOutcome.getD Val.vnil)) = some hv
  rw [h1, h2]

/-- An unconsumed fault is re-raised unchanged after the finally (when the
finally itself raises nothing). -/
theorem done_outcome_unconsumed (p : Plan)
    (h1 : (dispatch p.catches (p.mainOutcome.getD Val.vnil)).2.1 = false)
    (h2 : (dispatch p.catches (p.mainOutcome.getD Val.vnil)).2.2 = none)
    (h3 : (runFinally p.finallies).2 = none) :
    (Done p).2 = some (p.mainOutcome.getD Val.vnil) := by
  show (match (runFinally p.finallies).2 with
    | some v => some v
    | none =>
      match (dispatch p.catches (p.mainOutcome.getD Val.vnil)).2.2 with
      | some v => some v
      | none =>
        if (dispatch p.catches (p.mainOutcome.getD Val.vnil)).2.1 then none
        else some (p.mainOutcome.getD Val.vnil))
    = some (p.mainOutcome.getD Val.vnil)
  rw [h1, h2, h3]
  rfl

/-- Unfolding `Repanic` on a classified Error. -/
theorem repanic_classified (cls : ErrorClass) (m : Nat)
    (d : List (Nat × Val)) :
    Repanic (Val.classified cls m d)
      = if (ErrorClass.Is cls UnknownPanicError) = false
        then Val.classified cls m d
        else
          match getData (Val.classified cls m d) OriginalErrorKey with
          | some data => data
          | none =>
              Val.classified ProgrammerError 999
                [(OriginalErrorKey, Val.classified cls m d)] := rfl

/-- C1: for a classified fault, `Done` scans catch entries in registration
order and invokes exactly one handler — the first entry that is the
wildcard or whose class the Error `Is` (the handler receiving the Error
after its exit-path record); in particular with `Catch(Y)`, `Catch(X)`,
`CatchAll` registered and the fault's class X satisfying `X.Is Y`, the `Y`
handler at index 0 fires and neither the `X` handler nor the wildcard
runs. -/
theorem done_first_match_wins :
    (∀ (cls : ErrorClass) (m : Nat) (d : List (Nat × Val)) (cs : List Check)
       (fs : List (Option Val)) (j : Nat),
       firstErrMatchIdx cls 0 cs = some j →
       handlerEvents (Done ⟨some (Val.classified cls m d), cs, fs⟩).1
         = [Event.handlerRun j (recordBefore (Val.classified cls m d))])
    ∧ (∀ (X Y : ErrorClass) (m : Nat) (d : List (Nat × Val))
         (bY bX : Val → Option Val) (bAll : Val → Option Val)
         (fs : List (Option Val)),
       X.Is Y = true →
       handlerEvents (Done ⟨some (Val.classified X m d),
           [Check.typed Y bY, Check.typed X bX, Check.wildcard bAll],
           fs⟩).1
         = [Event.handlerRun 0 (recordBefore (Val.classified X m d))]) := by
  constructor
  · intro cls m d cs fs j h
    rw [done_handler_events]
    exact (scanErr_first_some cls _ cs 0 j h).1
  · intro X Y m d bY bX bAll fs hXY
    rw [done_handler_events]
    have h : firstErrMatchIdx X 0
        [Check.typed Y bY, Check.typed X bX, Check.wildcard bAll]
        = some 0 := by
      simp [firstErrMatchIdx, hXY]
    exact (scanErr_first_some X _ _ 0 0 h).1

/-- Concrete instance of `done_first_match_wins`: X is a child of Y, the
handlers are registered Y, X, wildcard, and only the Y handler (index 0)
fires. -/
theorem done_first_match_wins_witness :
    handlerEvents (Done ⟨some (Val.classified
        (ErrorClass.node 21 [] 0 (ErrorClass.root 20 [] 0)) 4 []),
        [Check.typed (ErrorClass.root 20 [] 0) (fun _ => none),
         Check.typed (ErrorClass.node 21 [] 0 (ErrorClass.root 20 [] 0))
           (fun _ => none),
         Check.wildcard (fun _ => none)], [none]⟩).1
      = [Event.handlerRun 0 (recordBefore (Val.classified
          (ErrorClass.node 21 [] 0 (ErrorClass.root 20 [] 0)) 4 []))] :=
  done_first_match_wins.2
    (ErrorClass.node 21 [] 0 (ErrorClass.root 20 [] 0))
    (ErrorClass.root 20 [] 0) 4 [] (fun _ => none) (fun _ => none)
    (fun _ => none) [none] (by decide)

/-- C2: the composed finally callback is invoked exactly once on every
execution of `Done` — block returning normally, fault handled, fault
unconsumed, or handler panicking alike; a fault raised by the selected
handler propagates past the Plan (masking the original) when the finally
raises nothing, and a fault raised by the composed finally replaces any
fault state whatsoever. -/
theorem done_finally_once_and_masking :
    (∀ p : Plan, finallyInvocations (Done p).1 = 1)
    ∧ (∀ (p : Plan) (hv : Val),
        (dispatch p.catches (p.mainOutcome.getD Val.vnil)).2.2 = some hv →
        (runFinally p.finallies).2 = none →
        (Done p).2 = some hv)
    ∧ (∀ (p : Plan) (fv : Val),
        (runFinally p.finallies).2 = some fv →
        (Done p).2 = some fv) :=
  ⟨done_finally_once, done_outcome_handler_panic, done_outcome_finally_panic⟩

/-- Concrete instance of `done_finally_once_and_masking`: a wildcard
handler that panics `raw 7` makes `Done` propagate `raw 7`, and a cleanup
that panics `raw 9` makes `Done` propagate `raw 9`. -/
theorem done_finally_once_and_masking_witness :
    finallyInvocations (Done ⟨none, [], []⟩).1 = 1
    ∧ (Done ⟨some (Val.plainErr 5),
        [Check.wildcard (fun _ => some (Val.raw 7))], [none]⟩).2
      = some (Val.raw 7)
    ∧ (Done ⟨some (Val.plainErr 5),
        [Check.wildcard (fun _ => some (Val.raw 7))],
        [some (Val.raw 9)]⟩).2 = some (Val.raw 9) :=
  ⟨done_finally_once_and_masking.1 ⟨none, [], []⟩,
   done_finally_once_and_masking.2.1
     ⟨some (Val.plainErr 5), [Check.wildcard (fun _ => some (Val.raw 7))],
       [none]⟩ (Val.raw 7) rfl rfl,
   done_finally_once_and_masking.2.2
     ⟨some (Val.plainErr 5), [Check.wildcard (fun _ => some (Val.raw 7))],
       [some (Val.raw 9)]⟩ (Val.raw 9) rfl⟩

/-- C3: a plain (unclassified) error payload skips every typed catch
entry; only the first wildcard fires, receiving the raw value; with no
wildcard the fault is unconsumed and re-raised unchanged (when the finally
raises nothing), with nothing synthesized. -/
theorem done_plain_payload :
    (∀ (t : Nat) (cs : List Check) (fs : List (Option Val)) (j : Nat),
       firstWildcardIdx 0 cs = some j →
       handlerEvents (Done ⟨some (Val.plainErr t), cs, fs⟩).1
         = [Event.handlerRun j (Val.plainErr t)])
    ∧ (∀ (t : Nat) (cs : List Check) (fs : List (Option Val)),
       firstWildcardIdx 0 cs = none →
       handlerEvents (Done ⟨some (Val.plainErr t), cs, fs⟩).1 = []
       ∧ ((runFinally fs).2 = none →
          (Done ⟨some (Val.plainErr t), cs, fs⟩).2
            = some (Val.plainErr t))) := by
  constructor
  · intro t cs fs j h
    rw [done_handler_events]
    exact (scanPlain_first_some (Val.plainErr t) cs 0 j h).1
  · intro t cs fs h
    have he := scanPlain_first_none (Val.plainErr t) cs 0 h
    constructor
    · rw [done_handler_events]
      show (scanPlain (Val.plainErr t) 0 cs).1 = []
      rw [he]
    · intro hf
      apply done_outcome_unconsumed
      · show (scanPlain (Val.plainErr t) 0 cs).2.1 = false
        rw [he]
      · show (scanPlain (Val.plainErr t) 0 cs).2.2 = none
        rw [he]
      · exact hf

/-- Concrete instance of `done_plain_payload`: a typed entry is skipped in
favour of the wildcard at index 1; and with only a typed entry the plain
fault re-raises unchanged. -/
theorem done_plain_payload_witness :
    handlerEvents (Done ⟨some (Val.plainErr 5),
        [Check.typed ProgrammerError (fun _ => none),
         Check.wildcard (fun _ => none)], [none]⟩).1
      = [Event.handlerRun 1 (Val.plainErr 5)]
    ∧ (Done ⟨some (Val.plainErr 5),
        [Check.typed ProgrammerError (fun _ => none)], [none]⟩).2
      = some (Val.plainErr 5) :=
  ⟨done_plain_payload.1 5
      [Check.typed ProgrammerError (fun _ => none),
       Check.wildcard (fun _ => none)] [none] 1 rfl,
   (done_plain_payload.2 5
      [Check.typed ProgrammerError (fun _ => none)] [none] rfl).2 rfl⟩

/-- C4: a non-error payload is adapted into a fresh Error of class
`UnknownPanicError` carrying the original raw payload in its data
side-table under `OriginalErrorKey`, and is dispatched to the first entry
that is the wildcard or whose class `UnknownPanicError.Is`; the payload is
retrievable from the adapter under that key. -/
theorem done_unknown_adapter :
    (∀ (t : Nat) (cs : List Check) (fs : List (Option Val)) (j : Nat),
       firstUnknownMatchIdx 0 cs = some j →
       handlerEvents (Done ⟨some (Val.raw t), cs, fs⟩).1
         = [Event.handlerRun j (mkUnknown t)])
    ∧ (∀ t : Nat,
       mkUnknown t
         = Val.classified UnknownPanicError t [(OriginalErrorKey, Val.raw t)]
       ∧ getData (mkUnknown t) OriginalErrorKey = some (Val.raw t)) := by
  constructor
  · intro t cs fs j h
    rw [done_handler_events]
    exact (scanRaw_first_some t cs 0 j h).1
  · intro t
    exact ⟨rfl, rfl⟩

/-- Concrete instance of `done_unknown_adapter`: raising the raw value 42
through a Plan with only a `CatchAll` hands the wildcard the adapter, and
the adapter's side-table returns the payload. -/
theorem done_unknown_adapter_witness :
    handlerEvents (Done ⟨some (Val.raw 42),
        [Check.wildcard (fun _ => none)], []⟩).1
      = [Event.handlerRun 0 (mkUnknown 42)]
    ∧ getData (mkUnknown 42) OriginalErrorKey = some (Val.raw 42) :=
  ⟨done_unknown_adapter.1 42 [Check.wildcard (fun _ => none)] [] 0 rfl,
   (done_unknown_adapter.2 42).2⟩

/-- C5: `Repanic` re-raises the embedded original payload of an
unknown-fault-classified Error (by identity: the very value stored under
`OriginalErrorKey`); re-raises verbatim any value that is not an
unknown-fault-classified Error; and raises a `ProgrammerError`-classified
fault when the embedded payload is absent. -/
theorem repanic_round_trip :
    (∀ (cls : ErrorClass) (m : Nat) (d : List (Nat × Val)) (pv : Val),
       cls.Is UnknownPanicError = true →
       getData (Val.classified cls m d) OriginalErrorKey = some pv →
       Repanic (Val.classified cls m d) = pv)
    ∧ (∀ t : Nat, Repanic (mkUnknown t) = Val.raw t)
    ∧ (∀ v : Val, isUnknownClassified v = false → Repanic v = v)
    ∧ (∀ (cls : ErrorClass) (m : Nat) (d : List (Nat × Val)),
       cls.Is UnknownPanicError = true →
       getData (Val.classified cls m d) OriginalErrorKey = none →
       Repanic (Val.classified cls m d)
         = Val.classified ProgrammerError 999
             [(OriginalErrorKey, Val.classified cls m d)]) := by
  refine ⟨?_, ?_, ?_, ?_⟩
  · intro cls m d pv h1 h2
    rw [repanic_classified, h1, h2]
    simp
  · intro t
    rfl
  · intro v h
    cases v with
    | classified cls m d =>
        have hIs : cls.Is UnknownPanicError = false := h
        rw [repanic_classified, hIs]
        simp
    | vnil => rfl
    | plainErr t => rfl
    | raw t => rfl
  · intro cls m d h1 h2
    rw [repanic_classified, h1, h2]
    simp

/-- Concrete instance of `repanic_round_trip`: the adapter for payload 11
round-trips to `raw 11`; a raw value re-raises verbatim; an adapter with
no embedded payload raises a `ProgrammerError` fault. -/
theorem repanic_round_trip_witness :
    Repanic (Val.classified UnknownPanicError 7
        [(OriginalErrorKey, Val.raw 11)]) = Val.raw 11
    ∧ Repanic (Val.raw 3) = Val.raw 3
    ∧ Repanic (Val.classified UnknownPanicError 7 [])
      = Val.classified ProgrammerError 999
          [(OriginalErrorKey, Val.classified UnknownPanicError 7 [])] :=
  ⟨repanic_round_trip.1 UnknownPanicError 7 [(OriginalErrorKey, Val.raw 11)]
      (Val.raw 11) rfl rfl,
   repanic_round_trip.2.2.1 (Val.raw 3) rfl,
   repanic_round_trip.2.2.2 UnknownPanicError 7 [] rfl rfl⟩

/-- C10: a fault whose payload is nil is indistinguishable from a normal
return at the recovery boundary: `Done` behaves identically (same trace,
same outcome), invokes no handler, runs the finally once, and — when the
finally raises nothing — propagates nothing. -/
theorem done_nil_absorbed :
    ∀ (cs : List Check) (fs : List (Option Val)),
      Done ⟨some Val.vnil, cs, fs⟩ = Done ⟨none, cs, fs⟩
      ∧ handlerEvents (Done ⟨some Val.vnil, cs, fs⟩).1 = []
      ∧ finallyInvocations (Done ⟨some Val.vnil, cs, fs⟩).1 = 1
      ∧ ((runFinally fs).2 = none →
         (Done ⟨some Val.vnil, cs, fs⟩).2 = none) := by
  intro cs fs
  refine ⟨rfl, ?_, done_finally_once _, ?_⟩
  · rw [done_handler_events]
    rfl
  · intro hf
    show (match (runFinally fs).2 with
      | some v => some v
      | none =>
        match (dispatch [] Val.vnil).2.2 with
        | some v => some v
        | none =>
          if (dispatch [] Val.vnil).2.1 then none else some Val.vnil)
      = none
    rw [hf]
    rfl

/-- Concrete instance of `done_nil_absorbed`: with a wildcard registered
and one cleanup, a nil-payload fault is absorbed silently. -/
theorem done_nil_absorbed_witness :
    Done ⟨some Val.vnil, [Check.wildcard (fun _ => none)], [none]⟩
      = Done ⟨none, [Check.wildcard (fun _ => none)], [none]⟩
    ∧ (Done ⟨some Val.vnil, [Check.wildcard (fun _ => none)], [none]⟩).2
      = none :=
  ⟨(done_nil_absorbed [Check.wildcard (fun _ => none)] [none]).1,
   (done_nil_absorbed [Check.wildcard (fun _ => none)] [none]).2.2.2 rfl⟩
